import Mathlib

/-!
Verification of the multi-phase workflow orchestrator (src/src/orchestrator.ts).

Strings are embedded as lists of characters (`Str`).  The filesystem is an
explicit map from filenames to optional contents, and the clock is an explicit
sequence of readings consumed in execution order: the i-th reading stamps the
i-th PhaseRecord.  The external worker invocation in the source is an
unimplemented placeholder that always produces a fixed template; the
failure-capturing executor and the policy-driven controller required by the
design document are modelled from the spec and clearly marked as such.
-/

set_option maxRecDepth 4000

namespace Orchestrator

/-- Character-list model of a JavaScript string. -/
abbrev Str := List Char

/-- Embeds the `AgentConfig` interface (orchestrator.ts lines 4-8). -/
structure AgentConfig where
  description : Str
  tools : List Str
  model : Option Str
deriving DecidableEq

/-- Embeds the `PhaseOutput` interface (orchestrator.ts lines 10-15).  The
source stores the timestamp as an ISO-8601 string produced by a fresh
`Date` call; it is modelled as the clock reading (milliseconds) itself. -/
structure PhaseOutput where
  phase : Str
  timestamp : Nat
  result : Str
  error : Option Str
deriving DecidableEq

/-- Outcome of one call of `loadInstructionFile`: the instruction text and
whether the missing-file warning was emitted (`console.warn`, line 38). -/
structure LoadResult where
  text : Str
  warned : Bool
deriving DecidableEq

/-- Everything one `runPhase` call produces: the PhaseRecord, the full prompt
sent to the worker, and whether the instruction-fallback warning fired. -/
structure PhaseTrace where
  record : PhaseOutput
  prompt : Str
  warned : Bool
deriving DecidableEq

/-- Modelled from the spec: the external worker interface (spec section 6)
returns a result text or raises a failure; the source's invocation site is an
unimplemented placeholder standing in for it. -/
inductive WorkerOutcome where
  | ok (text : Str)
  | fail (err : Str)
deriving DecidableEq

/-- `phaseName.toUpperCase()` (ASCII, as used by the source's phase names). -/
def upper (s : Str) : Str := s.map Char.toUpper

/-- `phase.charAt(0).toUpperCase() + phase.slice(1)` (orchestrator.ts line 69). -/
def capitalizeFirst : Str → Str
  | [] => []
  | c :: rest => Char.toUpper c :: rest

/-- JavaScript `String.prototype.replace` with a plain-string pattern: replaces
the first occurrence only (orchestrator.ts line 39). -/
def replaceOnce (pat repl : Str) : Str → Str
  | [] => if pat = [] then repl else []
  | c :: rest =>
    if pat.isPrefixOf (c :: rest) then repl ++ (c :: rest).drop pat.length
    else c :: replaceOnce pat repl rest

/-- The conventional instruction filename for a phase
(orchestrator.ts lines 93-95). -/
def instructionFilename (phase : Str) : Str :=
  phase ++ "-phase.instructions.md".data

/-- The synthesized fallback instruction returned when the instruction file is
absent (orchestrator.ts line 39). -/
def defaultInstruction (filename : Str) : Str :=
  "Execute the ".data ++ replaceOnce "-phase.instructions.md".data [] filename
    ++ " phase of the workflow.".data

/-- Embeds `loadInstructionFile` (orchestrator.ts lines 35-42) over an explicit
filesystem `fs` mapping filenames to optional contents (the instructions
directory prefix is absorbed into `fs`).  A missing file yields the synthesized
default instruction together with a warning; an existing file is returned
verbatim with no warning. -/
def loadInstructionFile (fs : Str → Option Str) (filename : Str) : LoadResult :=
  match fs filename with
  | none => { text := defaultInstruction filename, warned := true }
  | some content => { text := content, warned := false }

/-- The result of the JavaScript lookup `configs[phase] || default`
(orchestrator.ts line 68).  A plain object literal inherits from
`Object.prototype`, so property access can produce either a genuine
`AgentConfig` value or an inherited prototype member (a function object, or
the prototype object itself for the `__proto__` accessor); the inherited
member is truthy, so the `||` fallback does not replace it. -/
inductive LookupResult where
  | config (c : AgentConfig)
  | inherited (name : Str)
deriving DecidableEq

/-- The standard members every plain object literal inherits from
`Object.prototype` (Node.js): when the key is not an own key of `configs`,
property access walks the prototype chain and finds these, and each of them is
truthy. -/
def objectPrototypeMembers : List Str :=
  ["constructor".data, "hasOwnProperty".data, "isPrototypeOf".data,
    "propertyIsEnumerable".data, "toLocaleString".data, "toString".data,
    "valueOf".data, "__defineGetter__".data, "__defineSetter__".data,
    "__lookupGetter__".data, "__lookupSetter__".data, "__proto__".data]

/-- Embeds `getAgentConfig` (orchestrator.ts lines 44-73) with JavaScript
property-lookup semantics: an own key of the `configs` literal yields its
AgentConfig; otherwise the prototype chain is consulted, so an identifier
naming an `Object.prototype` member yields that inherited truthy member and
the `|| default` fallback never fires; only for all remaining identifiers does
the lookup produce undefined (falsy) and the synthesized default apply. -/
def getAgentConfig (phase : Str) : LookupResult :=
  if phase = "research".data then
    LookupResult.config
    { description := "Research specialist for thorough analysis and requirement gathering".data,
      tools := ["Read".data, "Grep".data, "Glob".data, "WebSearch".data, "WebFetch".data,
        "Task".data],
      model := some "opus".data }
  else if phase = "plan".data then
    LookupResult.config
    { description := "Planning expert for creating detailed implementation plans".data,
      tools := ["Read".data, "Write".data, "Grep".data, "Glob".data, "Task".data],
      model := some "opus".data }
  else if phase = "implement".data then
    LookupResult.config
    { description := "Expert developer for implementing code following specifications".data,
      tools := ["Read".data, "Write".data, "Edit".data, "Bash".data, "Grep".data, "Glob".data,
        "TodoWrite".data],
      model := some "sonnet".data }
  else if phase = "correct".data then
    LookupResult.config
    { description := "Quality assurance expert for reviewing and correcting implementations".data,
      tools := ["Read".data, "Edit".data, "Bash".data, "Grep".data, "Glob".data,
        "TodoWrite".data],
      model := some "opus".data }
  else if phase ∈ objectPrototypeMembers then LookupResult.inherited phase
  else
    LookupResult.config
    { description := capitalizeFirst phase ++ " phase specialist".data,
      tools := ["Read".data, "Write".data, "Grep".data, "Glob".data],
      model := some "sonnet".data }

/-- The synthesized default config produced for identifiers outside the static
registry (orchestrator.ts lines 68-72). -/
def synthesizedConfig (phase : Str) : AgentConfig :=
  { description := capitalizeFirst phase ++ " phase specialist".data,
    tools := ["Read".data, "Write".data, "Grep".data, "Glob".data],
    model := some "sonnet".data }

/-- The truncated preview of a prior phase's result (orchestrator.ts line 103):
`result.length > threshold ? result.substring(0, threshold) + "..." : result`.
The source hardcodes the default threshold 1000 at its single call site (see
`contextBlock`); the threshold is a parameter here so the truncation law can be
stated for a general N. -/
def previewOf (threshold : Nat) (result : Str) : Str :=
  if threshold < result.length then result.take threshold ++ "...".data else result

/-- The context-section header (orchestrator.ts line 101). -/
def ctxHeader : Str := "\n\n## Context from Previous Phases:\n".data

/-- The instruction-section header (orchestrator.ts line 108). -/
def instrHeader : Str := "\n\n## Phase Instructions:\n".data

/-- One labeled block for a previously completed phase (orchestrator.ts
line 104), holding the truncated preview of that phase's result at the
source's hardcoded threshold 1000. -/
def contextBlock (pr : Str × Str) : Str :=
  "\n### ".data ++ upper pr.1 ++ " Phase:\n".data ++ previewOf 1000 pr.2 ++ "\n".data

/-- Embeds the prompt assembly of `runPhase` (orchestrator.ts lines 99-108):
the task description, then - only when prior results exist - the context header
followed by one labeled block per prior phase in completion order (the source's
for-loop is the fold), then the instruction header and the instruction text. -/
def assemblePrompt (task : Str) (previousResults : List (Str × Str))
    (instructions : Str) : Str :=
  (if previousResults.length > 0 then
    previousResults.foldl (fun acc pr => acc ++ contextBlock pr) (task ++ ctxHeader)
  else task) ++ instrHeader ++ instructions

/-- The placeholder worker response (orchestrator.ts line 125): a fixed
template depending only on the phase name. -/
def phaseTemplate (phaseName : Str) : Str :=
  "[".data ++ upper phaseName ++
    " PHASE COMPLETE]\n\nThis is where the agent\x27s response would be captured.\n\nIn a real implementation, this would use the Claude Agent SDK to:\n1. Spawn a sub-agent with the specified model and tools\n2. Pass the full prompt with instructions\n3. Capture the agent\x27s response\n4. Return the results".data

/-- Embeds `runPhase` (orchestrator.ts lines 84-132) as it stands in the
source: load the instruction text (with fallback), assemble the full prompt,
and fill the PhaseRecord with the placeholder worker's template, stamping it
with the current clock reading `now`. -/
def runPhase (fs : Str → Option Str) (now : Nat) (phaseName task : Str)
    (previousResults : List (Str × Str)) : PhaseTrace :=
  let load := loadInstructionFile fs (instructionFilename phaseName)
  let fullPrompt := assemblePrompt task previousResults load.text
  { record :=
      { phase := phaseName, timestamp := now, result := phaseTemplate phaseName,
        error := none },
    prompt := fullPrompt, warned := load.warned }

/-- Task description passed to the research phase (orchestrator.ts line 149). -/
def researchTaskDesc (task : Str) : Str :=
  "Task: ".data ++ task ++
    "\n\nConduct thorough research for this task. Verify assumptions, explore multiple approaches, and document findings.".data

/-- Task description passed to the plan phase (orchestrator.ts line 158). -/
def planTaskDesc (task : Str) : Str :=
  "Task: ".data ++ task ++
    "\n\nBased on the research above, create a detailed implementation plan.".data

/-- Task description passed to the implement phase (orchestrator.ts line 168). -/
def implementTaskDesc (task : Str) : Str :=
  "Task: ".data ++ task ++
    "\n\nImplement the solution following the plan above.".data

/-- Task description passed to the correct phase (orchestrator.ts line 178). -/
def correctTaskDesc (task : Str) : Str :=
  "Task: ".data ++ task ++
    "\n\nReview the implementation and create a corrective plan if issues are found.".data

/-- Embeds `orchestrate` (orchestrator.ts lines 134-194): the fixed
research - plan - implement - correct sequence, each phase receiving the map of
the results of all previously completed phases; `clock i` is the Date reading taken
by the i-th `runPhase` call.  Returns the results map (in insertion order,
which JavaScript objects preserve for these keys) and the four phase traces. -/
def orchestrate (fs : Str → Option Str) (clock : Nat → Nat) (task : Str) :
    List (Str × Str) × List PhaseTrace :=
  let researchTrace := runPhase fs (clock 0) "research".data (researchTaskDesc task) []
  let prev1 := [("research".data, researchTrace.record.result)]
  let planTrace := runPhase fs (clock 1) "plan".data (planTaskDesc task) prev1
  let prev2 := prev1 ++ [("plan".data, planTrace.record.result)]
  let implementTrace := runPhase fs (clock 2) "implement".data (implementTaskDesc task) prev2
  let prev3 := prev2 ++ [("implement".data, implementTrace.record.result)]
  let correctTrace := runPhase fs (clock 3) "correct".data (correctTaskDesc task) prev3
  (prev3 ++ [("correct".data, correctTrace.record.result)],
    [researchTrace, planTrace, implementTrace, correctTrace])

/-- `new Date().toISOString().replace(/:/g, "-")` without the Date call:
every colon of the timestamp string becomes a hyphen
(orchestrator.ts line 76). -/
def sanitizeTimestamp (t : Str) : Str :=
  t.map (fun c => if c = ':' then '-' else c)

/-- Embeds the locator computation of `savePhaseOutput` (orchestrator.ts
lines 75-82): the filename is the phase name, an underscore, the sanitized
timestamp taken at save time, and the `.json` extension. -/
def phaseFilename (phase : Str) (saveTime : Str) : Str :=
  phase ++ "_".data ++ sanitizeTimestamp saveTime ++ ".json".data

/-- Lexicographic (byte-wise) comparison of filenames: the order a sorted
directory listing presents locators in. -/
def lexLt : Str → Str → Bool
  | [], [] => false
  | [], _ :: _ => true
  | _ :: _, [] => false
  | a :: as, b :: bs => if a < b then true else if a = b then lexLt as bs else false

/-- The source's placeholder worker as a worker-interface value: it ignores
the payload and always succeeds with the fixed template
(orchestrator.ts line 125). -/
def placeholderWorker : Str → Str → WorkerOutcome :=
  fun phaseName _ => WorkerOutcome.ok (phaseTemplate phaseName)

/-- Modelled from the spec: the Phase Executor's result/error capture (spec
section 4.4 step 3), which the source leaves unimplemented behind the
placeholder.  On worker success the record carries the result text and no
error; on worker failure the record keeps the source's initial empty result
(orchestrator.ts line 113) and carries the error text.  Everything else is the
source's `runPhase` unchanged. -/
def runPhaseWith (worker : Str → Str → WorkerOutcome) (fs : Str → Option Str)
    (now : Nat) (phaseName task : Str) (previousResults : List (Str × Str)) :
    PhaseTrace :=
  let load := loadInstructionFile fs (instructionFilename phaseName)
  let fullPrompt := assemblePrompt task previousResults load.text
  match worker phaseName fullPrompt with
  | WorkerOutcome.ok text =>
    { record := { phase := phaseName, timestamp := now, result := text, error := none },
      prompt := fullPrompt, warned := load.warned }
  | WorkerOutcome.fail err =>
    { record := { phase := phaseName, timestamp := now, result := [], error := some err },
      prompt := fullPrompt, warned := load.warned }

/-- Modelled from the spec: the text a completed phase contributes to later
the context of later phases and to the summary - its result on success, its captured error
text on failure (spec sections 4.6 and 7: failures are not hidden from later
phases and stay visible in the final summary). -/
def recordedText (o : PhaseOutput) : Str :=
  match o.error with
  | some e => e
  | none => o.result

/-- The default configured phase order (spec section 4.6; the source's fixed
sequence in orchestrator.ts lines 145-181). -/
def defaultPhases : List Str :=
  ["research".data, "plan".data, "implement".data, "correct".data]

/-- The per-phase task description the controller passes to `runPhase`
(orchestrator.ts lines 149, 158, 168, 178). -/
def phaseTaskDescription (phase task : Str) : Str :=
  if phase = "research".data then researchTaskDesc task
  else if phase = "plan".data then planTaskDesc task
  else if phase = "implement".data then implementTaskDesc task
  else if phase = "correct".data then correctTaskDesc task
  else "Task: ".data ++ task

/-- Modelled from the spec: the Orchestration Controller driven by an ordered
phase list (spec section 4.6), folding each phase's recorded text into the
running results map, and classifying each failure through the pluggable
`policy` (continue when `policy phase err = true`, halt otherwise).  The
source's controller is this loop at `defaultPhases` with the always-succeeding
placeholder worker and therefore never consults the policy. -/
def runPhasesWith (policy : Str → Str → Bool) (worker : Str → Str → WorkerOutcome)
    (fs : Str → Option Str) (clock : Nat → Nat) (task : Str) :
    List Str → Nat → List (Str × Str) → List (Str × Str) × List PhaseTrace
  | [], _, prev => (prev, [])
  | ph :: rest, i, prev =>
    let tr := runPhaseWith worker fs (clock i) ph (phaseTaskDescription ph task) prev
    let prevNext := prev ++ [(ph, recordedText tr.record)]
    match tr.record.error with
    | none =>
      let next := runPhasesWith policy worker fs clock task rest (i + 1) prevNext
      (next.1, tr :: next.2)
    | some e =>
      if policy ph e then
        let next := runPhasesWith policy worker fs clock task rest (i + 1) prevNext
        (next.1, tr :: next.2)
      else (prevNext, [tr])

/-- Modelled from the spec: the policy-driven controller over the default
phase order (spec section 4.6). -/
def orchestrateWith (policy : Str → Str → Bool) (worker : Str → Str → WorkerOutcome)
    (fs : Str → Option Str) (clock : Nat → Nat) (task : Str) :
    List (Str × Str) × List PhaseTrace :=
  runPhasesWith policy worker fs clock task defaultPhases 0 []

/-- A worker simulating the spec's failure scenario: it fails exactly on the
implement phase with the given error text and behaves as the source's
placeholder elsewhere. -/
def failAtImplement (err : Str) : Str → Str → WorkerOutcome :=
  fun phase _ =>
    if phase = "implement".data then WorkerOutcome.fail err
    else WorkerOutcome.ok (phaseTemplate phase)

/-! ## Helper lemmas -/

/-- The source's for-loop over prior results (a left fold of block appends)
concatenates the blocks in completion order after the initial text. -/
theorem foldl_contextBlocks (l : List (Str × Str)) (init : Str) :
    l.foldl (fun acc pr => acc ++ contextBlock pr) init =
      init ++ (l.map contextBlock).flatten := by
  induction l generalizing init with
  | nil => simp
  | cons hd tl ih => simp [List.foldl_cons, ih, List.append_assoc]

/-- Unfolding one step of the controller loop when the phase succeeds. -/
theorem runPhasesWith_cons_ok (policy : Str → Str → Bool)
    (worker : Str → Str → WorkerOutcome) (fs : Str → Option Str) (clock : Nat → Nat)
    (task ph : Str) (rest : List Str) (i : Nat) (prev : List (Str × Str))
    (tr : PhaseTrace)
    (htr : runPhaseWith worker fs (clock i) ph (phaseTaskDescription ph task) prev = tr)
    (h : tr.record.error = none) :
    runPhasesWith policy worker fs clock task (ph :: rest) i prev =
      ((runPhasesWith policy worker fs clock task rest (i + 1)
          (prev ++ [(ph, recordedText tr.record)])).1,
        tr :: (runPhasesWith policy worker fs clock task rest (i + 1)
          (prev ++ [(ph, recordedText tr.record)])).2) := by
  subst htr
  simp only [runPhasesWith]
  rw [h]

/-- Unfolding one step of the controller loop when the phase fails: the
pluggable policy decides between continuing and halting. -/
theorem runPhasesWith_cons_fail (policy : Str → Str → Bool)
    (worker : Str → Str → WorkerOutcome) (fs : Str → Option Str) (clock : Nat → Nat)
    (task ph : Str) (rest : List Str) (i : Nat) (prev : List (Str × Str))
    (tr : PhaseTrace) (e : Str)
    (htr : runPhaseWith worker fs (clock i) ph (phaseTaskDescription ph task) prev = tr)
    (h : tr.record.error = some e) :
    runPhasesWith policy worker fs clock task (ph :: rest) i prev =
      (if policy ph e then
        ((runPhasesWith policy worker fs clock task rest (i + 1)
            (prev ++ [(ph, recordedText tr.record)])).1,
          tr :: (runPhasesWith policy worker fs clock task rest (i + 1)
            (prev ++ [(ph, recordedText tr.record)])).2)
      else (prev ++ [(ph, recordedText tr.record)], [tr])) := by
  subst htr
  simp only [runPhasesWith]
  rw [h]

/-! ## Claim theorems -/

/-- C1: for every task string (and every filesystem and clock), `orchestrate`
returns a results map with exactly one entry per configured phase, in the
configured order - keys exactly research, plan, implement, correct - and every
mapped value is a non-empty string. -/
theorem orchestrate_summary_keys_and_nonempty (fs : Str → Option Str)
    (clock : Nat → Nat) (task : Str) :
    (orchestrate fs clock task).1.map Prod.fst = defaultPhases ∧
    ∀ pr ∈ (orchestrate fs clock task).1, pr.2 ≠ [] := by
  have h : (orchestrate fs clock task).1 =
      [("research".data, phaseTemplate "research".data),
        ("plan".data, phaseTemplate "plan".data),
        ("implement".data, phaseTemplate "implement".data),
        ("correct".data, phaseTemplate "correct".data)] := rfl
  refine ⟨?_, ?_⟩ <;> rw [h]
  · decide
  · decide

/-- C4: truncation law of the prior-result preview - the included text is the
first `min L N` units followed by the marker exactly when L exceeds N, and a
result of length at most the threshold (in particular exactly 1000 at
threshold 1000) is included verbatim with no marker. -/
theorem previewOf_truncation_law (n : Nat) (r : Str) :
    previewOf n r = r.take n ++ (if n < r.length then "...".data else []) ∧
    (r.take n).length = min r.length n ∧
    (r.length ≤ n → previewOf n r = r) := by
  refine ⟨?_, ?_, ?_⟩
  · by_cases h : n < r.length
    · simp [previewOf, h]
    · simp [previewOf, h, List.take_of_length_le (le_of_not_lt h)]
  · simp [List.length_take, Nat.min_comm]
  · intro h
    simp [previewOf, Nat.not_lt.mpr h]

/-- C4 witness: a result of length exactly 1000 at threshold 1000 is included
verbatim, with no truncation marker. -/
theorem previewOf_truncation_law_witness :
    (List.replicate 1000 'a').length ≤ 1000 ∧
    previewOf 1000 (List.replicate 1000 'a') = List.replicate 1000 'a' :=
  ⟨by simp, (previewOf_truncation_law 1000 (List.replicate 1000 'a')).2.2 (by simp)⟩

/-- C7: a missing instruction resource does not fail the phase - the loader
returns the non-empty synthesized instruction and flags a warning, and
`runPhase` still assembles its prompt from that fallback and still creates the
phase's PhaseRecord. -/
theorem loadInstruction_missing_fallback (fs : Str → Option Str) (now : Nat)
    (phase task : Str) (prevs : List (Str × Str))
    (h : fs (instructionFilename phase) = none) :
    loadInstructionFile fs (instructionFilename phase) =
      { text := defaultInstruction (instructionFilename phase), warned := true } ∧
    defaultInstruction (instructionFilename phase) ≠ [] ∧
    (runPhase fs now phase task prevs).warned = true ∧
    (runPhase fs now phase task prevs).prompt =
      assemblePrompt task prevs (defaultInstruction (instructionFilename phase)) ∧
    (runPhase fs now phase task prevs).record =
      { phase := phase, timestamp := now, result := phaseTemplate phase,
        error := none } := by
  refine ⟨?_, ?_, ?_, ?_, ?_⟩
  · simp [loadInstructionFile, h]
  · simp only [defaultInstruction, ne_eq, List.append_eq_nil, not_and]
    intro hq
    exact absurd hq.1 (by decide)
  · simp [runPhase, loadInstructionFile, h]
  · simp [runPhase, loadInstructionFile, h]
  · simp [runPhase]

/-- C7 witness: with an empty filesystem the research phase warns, falls back
to the synthesized instruction, and still produces its PhaseRecord. -/
theorem loadInstruction_missing_fallback_witness :
    ((fun _ => none) (instructionFilename "research".data) = (none : Option Str)) ∧
    (runPhase (fun _ => none) 0 "research".data "t".data []).warned = true :=
  ⟨rfl, (loadInstruction_missing_fallback (fun _ => none) 0 "research".data
    "t".data [] rfl).2.2.1⟩

/-- C8: the code contradicts its declared contract.  The claim (and the
declared TypeScript return type) promise a synthesized default PhaseConfig
for every unknown identifier, but `configs[phase] || default` walks the
JavaScript prototype chain: an unknown identifier naming an
`Object.prototype` member - here evaluated at `toString` and `__proto__` -
returns the inherited truthy prototype member, never reaching the fallback,
and that member is not the synthesized default config (nor any AgentConfig);
an ordinary unknown identifier such as `deploy` does get the synthesized
default. -/
theorem getAgentConfig_prototype_leak :
    getAgentConfig "toString".data = LookupResult.inherited "toString".data ∧
    getAgentConfig "toString".data ≠
      LookupResult.config (synthesizedConfig "toString".data) ∧
    getAgentConfig "__proto__".data = LookupResult.inherited "__proto__".data ∧
    getAgentConfig "deploy".data =
      LookupResult.config (synthesizedConfig "deploy".data) := by
  refine ⟨by decide, by decide, by decide, by decide⟩

/-- C10: the result text produced by `runPhase` is a fixed template determined
solely by the phase name - runs with different filesystems, clocks, task texts
and prior results produce the identical result for the same phase. -/
theorem runPhase_result_depends_only_on_phase (fs1 fs2 : Str → Option Str)
    (n1 n2 : Nat) (phase task1 task2 : Str) (prevs1 prevs2 : List (Str × Str)) :
    (runPhase fs1 n1 phase task1 prevs1).record.result =
      (runPhase fs2 n2 phase task2 prevs2).record.result ∧
    (runPhase fs1 n1 phase task1 prevs1).record.result = phaseTemplate phase :=
  ⟨rfl, rfl⟩

/-- C5: the assembled payload is the task text, then - absent entirely for the
first phase - the context header and one labeled block per previously
completed phase in completion order (each holding the possibly-truncated
preview of that phase's result), then the instruction text placed last and
never truncated; and within `orchestrate` each phase's prompt is assembled
from exactly the results of the strictly-earlier phases, never a later one. -/
theorem assemblePrompt_structure (task instr : Str) (prevs : List (Str × Str))
    (fs : Str → Option Str) (clock : Nat → Nat) :
    assemblePrompt task [] instr = task ++ instrHeader ++ instr ∧
    (prevs ≠ [] →
      assemblePrompt task prevs instr =
        task ++ ctxHeader ++ (prevs.map contextBlock).flatten ++ instrHeader ++ instr) ∧
    (∀ p r, contextBlock (p, r) =
      "\n### ".data ++ upper p ++ " Phase:\n".data ++ previewOf 1000 r ++ "\n".data) ∧
    (orchestrate fs clock task).2.map PhaseTrace.prompt =
      [assemblePrompt (researchTaskDesc task) []
          (loadInstructionFile fs (instructionFilename "research".data)).text,
        assemblePrompt (planTaskDesc task)
          [("research".data, phaseTemplate "research".data)]
          (loadInstructionFile fs (instructionFilename "plan".data)).text,
        assemblePrompt (implementTaskDesc task)
          [("research".data, phaseTemplate "research".data),
            ("plan".data, phaseTemplate "plan".data)]
          (loadInstructionFile fs (instructionFilename "implement".data)).text,
        assemblePrompt (correctTaskDesc task)
          [("research".data, phaseTemplate "research".data),
            ("plan".data, phaseTemplate "plan".data),
            ("implement".data, phaseTemplate "implement".data)]
          (loadInstructionFile fs (instructionFilename "correct".data)).text] := by
  refine ⟨rfl, ?_, fun p r => rfl, rfl⟩
  intro h
  have hl : 0 < prevs.length := List.length_pos.mpr h
  simp [assemblePrompt, hl, foldl_contextBlocks, List.append_assoc]

/-- C5 witness: with one completed prior phase the payload is the task, the
context header, that phase's labeled block, and the instruction text last. -/
theorem assemblePrompt_structure_witness :
    ([(("a".data : Str), ("b".data : Str))] : List (Str × Str)) ≠ [] ∧
    assemblePrompt "t".data [("a".data, "b".data)] "i".data =
      "t".data ++ ctxHeader ++ ([(("a".data : Str), ("b".data : Str))].map contextBlock).flatten
        ++ instrHeader ++ "i".data :=
  ⟨by decide,
    (assemblePrompt_structure "t".data "i".data [("a".data, "b".data)]
      (fun _ => none) (fun i => i)).2.1 (by decide)⟩

/-- C2: for every phase execution, a successful worker invocation yields a
PhaseRecord carrying the result text and no error, a failed invocation yields
a record with the failure captured as errorText and the empty placeholder
result - never both - stamped with the current time, and the executor returns
the record to the controller as a value (it is total, so the failure does not
crash the run). -/
theorem runPhaseWith_result_error_exclusive (worker : Str → Str → WorkerOutcome)
    (fs : Str → Option Str) (now : Nat) (phase task : Str)
    (prevs : List (Str × Str)) :
    ((runPhaseWith worker fs now phase task prevs).record.error = none ∨
      (runPhaseWith worker fs now phase task prevs).record.result = []) ∧
    (∀ t, worker phase (runPhaseWith worker fs now phase task prevs).prompt =
        WorkerOutcome.ok t →
      (runPhaseWith worker fs now phase task prevs).record =
        { phase := phase, timestamp := now, result := t, error := none }) ∧
    (∀ e, worker phase (runPhaseWith worker fs now phase task prevs).prompt =
        WorkerOutcome.fail e →
      (runPhaseWith worker fs now phase task prevs).record =
        { phase := phase, timestamp := now, result := [], error := some e }) := by
  rcases hw : worker phase
      (assemblePrompt task prevs
        (loadInstructionFile fs (instructionFilename phase)).text) with t | e <;>
    refine ⟨?_, ?_, ?_⟩ <;>
    simp_all [runPhaseWith]

/-- C2 witness: a worker that fails produces a record with the error captured
and the empty placeholder result. -/
theorem runPhaseWith_result_error_exclusive_witness :
    (fun (_ : Str) (_ : Str) => WorkerOutcome.fail "boom".data) "implement".data
        (runPhaseWith (fun _ _ => WorkerOutcome.fail "boom".data) (fun _ => none) 0
          "implement".data "t".data []).prompt = WorkerOutcome.fail "boom".data ∧
    (runPhaseWith (fun _ _ => WorkerOutcome.fail "boom".data) (fun _ => none) 0
        "implement".data "t".data []).record =
      { phase := "implement".data, timestamp := 0, result := [],
        error := some "boom".data } :=
  ⟨rfl,
    (runPhaseWith_result_error_exclusive (fun _ _ => WorkerOutcome.fail "boom".data)
      (fun _ => none) 0 "implement".data "t".data []).2.2 "boom".data rfl⟩

/-- C6 counterexample: the locator naming scheme puts the phase name before
the timestamp, so a sorted listing orders locators by phase name first, not by
creation time. Concretely, research is persisted at an earlier timestamp than
plan, yet plan's locator sorts strictly before research's - listing the
locators does not reconstruct the execution order.  (The third conjunct
records that the locator is a pure function of phase and save time, so a
re-persist of the same phase within the same timestamp reading produces the
identical locator - an overwrite, not a new locator.) -/
theorem savePhase_listing_breaks_execution_order :
    lexLt "2025-01-01T00:00:00.000Z".data "2025-01-01T00:00:01.000Z".data = true ∧
    lexLt (phaseFilename "plan".data "2025-01-01T00:00:01.000Z".data)
      (phaseFilename "research".data "2025-01-01T00:00:00.000Z".data) = true ∧
    phaseFilename "research".data "2025-01-01T00:00:00.000Z".data =
      phaseFilename "research".data "2025-01-01T00:00:00.000Z".data := by
  refine ⟨by decide, by decide, rfl⟩

/-- C6 amended: locators are distinct whenever the sanitized save timestamps
differ - re-persisting the same logical phase at a different timestamp yields
a new, distinct locator - but uniqueness and orderability rest on the
timestamp alone; the scheme does not order locators of different phases by
creation time. -/
theorem phaseFilename_distinct_timestamps (p t1 t2 : Str)
    (h : sanitizeTimestamp t1 ≠ sanitizeTimestamp t2) :
    phaseFilename p t1 ≠ phaseFilename p t2 := by
  intro heq
  apply h
  simp only [phaseFilename, List.append_assoc] at heq
  exact List.append_cancel_right (List.append_cancel_left (List.append_cancel_left heq))

/-- C6 amended witness: the same phase persisted at two distinct timestamps
gets two distinct locators. -/
theorem phaseFilename_distinct_timestamps_witness :
    sanitizeTimestamp "2025-01-01T00:00:00.000Z".data ≠
      sanitizeTimestamp "2025-01-01T00:00:01.000Z".data ∧
    phaseFilename "research".data "2025-01-01T00:00:00.000Z".data ≠
      phaseFilename "research".data "2025-01-01T00:00:01.000Z".data :=
  ⟨by decide,
    phaseFilename_distinct_timestamps "research".data "2025-01-01T00:00:00.000Z".data
      "2025-01-01T00:00:01.000Z".data (by decide)⟩

/-- C9 counterexample: the records are stamped from fresh clock readings with
millisecond resolution and nothing enforces strictness, so a run whose four
readings coincide (the placeholder phases take far less than a millisecond)
produces equal - not strictly increasing - timestamps. -/
theorem orchestrate_constant_clock_equal_timestamps :
    ((orchestrate (fun _ => none) (fun _ => 0) "build X".data).2.map
        (fun tr => tr.record.timestamp)) = [0, 0, 0, 0] ∧
    ¬ List.Chain' (· < ·)
      ((orchestrate (fun _ => none) (fun _ => 0) "build X".data).2.map
        (fun tr => tr.record.timestamp)) := by
  refine ⟨rfl, fun hch => ?_⟩
  rw [show ((orchestrate (fun _ => none) (fun _ => 0) "build X".data).2.map
      (fun tr => tr.record.timestamp)) = ([0, 0, 0, 0] : List Nat) from rfl] at hch
  exact absurd (List.chain'_cons.mp hch).1 (lt_irrefl 0)

/-- C9 amended: the four PhaseRecords are stamped in execution order from
successive clock readings, so within a run their timestamps are non-decreasing
whenever the clock is monotone, and strictly increase exactly under the added
assumption that successive readings strictly advance (distinct milliseconds
per phase). -/
theorem orchestrate_timestamps_monotone (fs : Str → Option Str) (task : Str)
    (clock : Nat → Nat) :
    (Monotone clock → List.Chain' (· ≤ ·)
      ((orchestrate fs clock task).2.map (fun tr => tr.record.timestamp))) ∧
    (StrictMono clock → List.Chain' (· < ·)
      ((orchestrate fs clock task).2.map (fun tr => tr.record.timestamp))) := by
  have hmap : (orchestrate fs clock task).2.map (fun tr => tr.record.timestamp) =
      [clock 0, clock 1, clock 2, clock 3] := rfl
  rw [hmap]
  constructor
  · intro hm
    simp only [List.chain'_cons, List.chain'_singleton, and_true]
    exact ⟨hm (by norm_num), hm (by norm_num), hm (by norm_num)⟩
  · intro hs
    simp only [List.chain'_cons, List.chain'_singleton, and_true]
    exact ⟨hs (by norm_num), hs (by norm_num), hs (by norm_num)⟩

/-- C9 amended witness: with a strictly advancing clock the stamped timestamps
strictly increase (and in particular are non-decreasing). -/
theorem orchestrate_timestamps_monotone_witness :
    List.Chain' (· ≤ ·)
      ((orchestrate (fun _ => none) (fun i => i) "x".data).2.map
        (fun tr => tr.record.timestamp)) ∧
    List.Chain' (· < ·)
      ((orchestrate (fun _ => none) (fun i => i) "x".data).2.map
        (fun tr => tr.record.timestamp)) :=
  ⟨(orchestrate_timestamps_monotone (fun _ => none) "x".data (fun i => i)).1
      monotone_id,
    (orchestrate_timestamps_monotone (fun _ => none) "x".data (fun i => i)).2
      strictMono_id⟩

/-- C3: a worker failure during implement does not unconditionally abort the
pipeline - under any policy classifying the failure as continue, all four
phases still execute, the implement record carries the error with the empty
placeholder result, and the correct phase's payload is assembled from the
prior results including the implement failure text; under any policy
classifying it as halt the run stops after implement, so the continue-vs-halt
decision is the pluggable policy's, not a hardcoded rule. -/
theorem orchestrateWith_implement_failure (err task : Str) (fs : Str → Option Str)
    (clock : Nat → Nat) (policyC policyH : Str → Str → Bool)
    (hC : policyC "implement".data err = true)
    (hH : policyH "implement".data err = false) :
    (orchestrateWith policyC (failAtImplement err) fs clock task).1.map Prod.fst =
      defaultPhases ∧
    (orchestrateWith policyC (failAtImplement err) fs clock task).2.map
        (fun tr => tr.record.error) = [none, none, some err, none] ∧
    (orchestrateWith policyC (failAtImplement err) fs clock task).2.map
        (fun tr => tr.record.result) =
      [phaseTemplate "research".data, phaseTemplate "plan".data, [],
        phaseTemplate "correct".data] ∧
    ((orchestrateWith policyC (failAtImplement err) fs clock task).2.map
        PhaseTrace.prompt).getLast? =
      some (assemblePrompt (correctTaskDesc task)
        [("research".data, phaseTemplate "research".data),
          ("plan".data, phaseTemplate "plan".data),
          ("implement".data, err)]
        (loadInstructionFile fs (instructionFilename "correct".data)).text) ∧
    (orchestrateWith policyH (failAtImplement err) fs clock task).1.map Prod.fst =
      ["research".data, "plan".data, "implement".data] ∧
    (orchestrateWith policyH (failAtImplement err) fs clock task).2.length = 3 := by
  unfold orchestrateWith
  simp only [defaultPhases]
  rw [runPhasesWith_cons_ok policyC (failAtImplement err) fs clock task
      "research".data _ 0 [] _ rfl rfl,
    runPhasesWith_cons_ok policyC (failAtImplement err) fs clock task
      "plan".data _ _ _ _ rfl rfl,
    runPhasesWith_cons_fail policyC (failAtImplement err) fs clock task
      "implement".data _ _ _ _ err rfl rfl,
    hC, if_pos rfl,
    runPhasesWith_cons_ok policyC (failAtImplement err) fs clock task
      "correct".data _ _ _ _ rfl rfl,
    runPhasesWith_cons_ok policyH (failAtImplement err) fs clock task
      "research".data _ 0 [] _ rfl rfl,
    runPhasesWith_cons_ok policyH (failAtImplement err) fs clock task
      "plan".data _ _ _ _ rfl rfl,
    runPhasesWith_cons_fail policyH (failAtImplement err) fs clock task
      "implement".data _ _ _ _ err rfl rfl,
    hH, if_neg Bool.false_ne_true]
  exact ⟨rfl, rfl, rfl, rfl, rfl, rfl⟩

/-- C3 witness: with the concrete always-continue and always-halt policies and
a concrete failure text, the continue run executes the correct phase after the
implement failure and the halt run stops after implement. -/
theorem orchestrateWith_implement_failure_witness :
    ((fun (_ : Str) (_ : Str) => true) "implement".data "boom".data = true) ∧
    ((fun (_ : Str) (_ : Str) => false) "implement".data "boom".data = false) ∧
    (orchestrateWith (fun _ _ => true) (failAtImplement "boom".data) (fun _ => none)
        (fun i => i) "build X".data).1.map Prod.fst = defaultPhases ∧
    (orchestrateWith (fun _ _ => false) (failAtImplement "boom".data) (fun _ => none)
        (fun i => i) "build X".data).2.length = 3 := by
  have h := orchestrateWith_implement_failure "boom".data "build X".data
    (fun _ => none) (fun i => i) (fun _ _ => true) (fun _ _ => false) rfl rfl
  exact ⟨rfl, rfl, h.1, h.2.2.2.2.2⟩

end Orchestrator
